import Mathlib

/-!
Verification of the Broadlink RM REST server's core module
(`app/db_helpers/blaster_db.py`) against its natural-language specification.

The Python source is shallowly embedded:
* byte strings are `List Nat` (each element < 256 where it matters),
* text strings are `List Char` (`Str` below),
* the SQLite-backed peewee table is a `List Blaster`,
* the external `broadlink` library (device construction, `auth`, `send_data`,
  `enter_learning`, `check_data`) is an explicit environment `DeviceEnv`,
* Python exceptions are an explicit `Except Exn` result,
* wall-clock time in the learning loop is a discrete clock advanced by 1
  per `time.sleep(1)` call.
-/

/-- Text strings of the Python source, as lists of characters. -/
abbrev Str := List Char

/-! ## Codec layer: `enc_hex` / `dec_hex` / `enc_b64` / `dec_b64` /
`friendly_mac_from_hex` -/

/-- Lowercase hex digit for a nibble, as produced by Python's `hex` codec
(`codecs.encode(raw, encoding="hex")`). Arguments ≥ 16 never arise for real
bytes; the table default is arbitrary. -/
def hexDigitChar (n : Nat) : Char :=
  ("0123456789abcdef".toList).getD n '0'

/-- Two lowercase hex digits of one byte. -/
def enc_hex_byte (b : Nat) : List Char :=
  [hexDigitChar (b / 16), hexDigitChar (b % 16)]

/-- `enc_hex(raw)`: `codecs.encode(raw, encoding="hex").decode()` —
lowercase hex encoding of a byte string. -/
def enc_hex (raw : List Nat) : Str :=
  raw.flatMap enc_hex_byte

/-- Value of one hex digit, case-insensitive, as accepted by Python's `hex`
codec on decode; `none` on a non-hex character. -/
def hexDigitVal (c : Char) : Option Nat :=
  if '0' ≤ c ∧ c ≤ '9' then some (c.toNat - 48)
  else if 'a' ≤ c ∧ c ≤ 'f' then some (c.toNat - 87)
  else if 'A' ≤ c ∧ c ≤ 'F' then some (c.toNat - 55)
  else none

/-- `dec_hex(raw)`: `bytearray(codecs.decode(raw, encoding="hex"))` —
decodes hex text to bytes; `none` models the `binascii.Error` raised on
odd-length or non-hex input. -/
def dec_hex : Str → Option (List Nat)
  | [] => some []
  | c1 :: c2 :: rest =>
    match hexDigitVal c1, hexDigitVal c2 with
    | some hi, some lo => (dec_hex rest).map fun t => (hi * 16 + lo) :: t
    | _, _ => none
  | _ => none

/-- `friendly_mac_from_hex(raw)`:
`":".join([raw[(x * 2) : ((x + 1) * 2)] for x in range(0, 6)])` —
the first six two-character slices of `raw`, joined with colons, in the
original (non-reversed) order. -/
def friendly_mac_from_hex (raw : Str) : Str :=
  List.intercalate [':'] ((List.range 6).map fun x => (raw.drop (x * 2)).take 2)

/-- Character of one 6-bit group in the standard base64 alphabet.
Arguments ≥ 64 never arise; the table default is arbitrary. -/
def b64Char (n : Nat) : Char :=
  ("ABCDEFGHIJKLMNOPQRSTUVWXYZabcdefghijklmnopqrstuvwxyz0123456789+/".toList).getD n 'A'

/-- Value of one base64 alphabet character; `none` for anything else
(padding `'='` included). -/
def b64Val (c : Char) : Option Nat :=
  if 'A' ≤ c ∧ c ≤ 'Z' then some (c.toNat - 65)
  else if 'a' ≤ c ∧ c ≤ 'z' then some (c.toNat - 97 + 26)
  else if '0' ≤ c ∧ c ≤ '9' then some (c.toNat - 48 + 52)
  else if c = '+' then some 62
  else if c = '/' then some 63
  else none

/-- Core base64 encoding: three bytes at a time into four alphabet
characters, with `'='` padding on a trailing group of one or two bytes. -/
def encB64Core : List Nat → Str
  | a :: b :: c :: rest =>
    b64Char (a / 4) :: b64Char (a % 4 * 16 + b / 16) ::
      b64Char (b % 16 * 4 + c / 64) :: b64Char (c % 64) :: encB64Core rest
  | [a, b] => [b64Char (a / 4), b64Char (a % 4 * 16 + b / 16), b64Char (b % 16 * 4), '=']
  | [a] => [b64Char (a / 4), b64Char (a % 4 * 16), '=', '=']
  | [] => []

/-- Core base64 decoding of a whitespace-free text: four characters at a
time, honouring `'='` padding; `none` on malformed input (models
`binascii.Error`). -/
def decB64Core : Str → Option (List Nat)
  | [] => some []
  | w :: x :: y :: z :: rest =>
    match b64Val w, b64Val x with
    | some vw, some vx =>
      if y = '=' then
        if z = '=' ∧ rest = [] then some [vw * 4 + vx / 16] else none
      else
        match b64Val y with
        | some vy =>
          if z = '=' then
            if rest = [] then some [vw * 4 + vx / 16, vx % 16 * 16 + vy / 4] else none
          else
            match b64Val z with
            | some vz =>
              (decB64Core rest).map fun t =>
                (vw * 4 + vx / 16) :: (vx % 16 * 16 + vy / 4) :: (vy % 4 * 64 + vz) :: t
            | none => none
        | none => none
    | _, _ => none
  | _ => none

/-- Characters kept by the base64 decoder (`binascii.a2b_base64` discards
every other character, newlines in particular). -/
def isB64Token (c : Char) : Bool :=
  (b64Val c).isSome || c = '='

/-- Line-wrapping of Python's `base64` codec (`base64.encodebytes`): a
newline after every 76 output characters and after the final partial line.
The fuel argument (an upper bound on the length) keeps the recursion
structural. -/
def wrap76Aux : Nat → Str → Str
  | _, [] => []
  | 0, s => s ++ ['\n']
  | fuel + 1, s => s.take 76 ++ '\n' :: wrap76Aux fuel (s.drop 76)

/-- `enc_b64(raw)`: `codecs.encode(raw, encoding="base64").decode()` —
MIME base64 with line wrapping and a trailing newline. -/
def enc_b64 (raw : List Nat) : Str :=
  wrap76Aux (encB64Core raw).length (encB64Core raw)

/-- `dec_b64(raw)`: `bytearray(codecs.decode(raw.encode(), encoding="base64"))`
— discards non-alphabet characters (newlines), then decodes. -/
def dec_b64 (raw : Str) : Option (List Nat) :=
  decB64Core (raw.filter isB64Token)

/-! ## Registry layer: the `Blaster` peewee model and the pure DB state -/

/-- One row of the `Blaster` table (`blasters.db`). -/
structure Blaster where
  uid : Nat
  ip : Str
  port : Nat
  devtype : Nat
  devicetype : Str
  mac : Str
  mac_hex : Str
  name : Option Str
deriving DecidableEq, Repr

/-- One element of `broadlink.discover(...)`'s result as used by
`get_new_blasters`: host address, device type code, model tag
(`get_type()`), raw MAC bytes. -/
structure Discovered where
  host_ip : Str
  host_port : Nat
  devtype : Nat
  model_tag : Str
  mac : List Nat
deriving DecidableEq, Repr

/-- peewee's `%` operator (SQL `LIKE`, case-insensitive), modelled for
wildcard-free patterns as case-insensitive equality. -/
def likeMatch (a b : Str) : Bool :=
  a.map Char.toLower == b.map Char.toLower

/-- Model of peewee's `save()` after mutating the instance returned by
`get_or_none`: replace the first record satisfying the lookup predicate. -/
def updateFirst (p : Blaster → Bool) (f : Blaster → Blaster) : List Blaster → List Blaster
  | [] => []
  | b :: rest => if p b then f b :: rest else b :: updateFirst p f rest

/-- Fresh surrogate key for `Blaster.create` (`AutoField`): one more than
the largest key in use. -/
def next_uid (db : List Blaster) : Nat :=
  db.foldr (fun b acc => max b.uid acc) 0 + 1

/-- The in-place update of a matched record inside `get_new_blasters`'s
loop: `check_blaster.ip = blaster.host[0]; …port…; …mac…; …mac_hex…;
check_blaster.save()` — `name`, `devtype` and `devicetype` are not
assigned. -/
def reconcileUpd (d : Discovered) (b : Blaster) : Blaster :=
  { b with ip := d.host_ip, port := d.host_port,
           mac := friendly_mac_from_hex (enc_hex d.mac), mac_hex := enc_hex d.mac }

/-- The record built by `Blaster.create(...)` for an unmatched discovered
device: fresh key, discovered connection data, `name=None`. -/
def createBlaster (db : List Blaster) (d : Discovered) : Blaster :=
  { uid := next_uid db, ip := d.host_ip, port := d.host_port,
    devtype := d.devtype, devicetype := d.model_tag.map Char.toLower,
    mac := friendly_mac_from_hex (enc_hex d.mac), mac_hex := enc_hex d.mac, name := none }

/-- The body of `get_new_blasters`'s loop for one discovered device:
look up by `mac_hex` (LIKE), then by `mac` (LIKE); on a hit update
`ip`, `port`, `mac`, `mac_hex` in place; otherwise create a new record
with `name = None`. Returns the new state and the increment of `cnt`. -/
def reconcileOne (db : List Blaster) (d : Discovered) : List Blaster × Nat :=
  match db.find? fun b => likeMatch b.mac_hex (enc_hex d.mac) with
  | some _ => (updateFirst (fun b => likeMatch b.mac_hex (enc_hex d.mac)) (reconcileUpd d) db, 0)
  | none =>
    match db.find? fun b => likeMatch b.mac (friendly_mac_from_hex (enc_hex d.mac)) with
    | some _ =>
      (updateFirst (fun b => likeMatch b.mac (friendly_mac_from_hex (enc_hex d.mac)))
        (reconcileUpd d) db, 0)
    | none => (db ++ [createBlaster db d], 1)

/-- `get_new_blasters`: fold `reconcileOne` over the discovery results in
arrival order; returns the final DB state and `cnt`
(the `{"new_devices": cnt}` payload). -/
def get_new_blasters : List Blaster → List Discovered → List Blaster × Nat
  | db, [] => (db, 0)
  | db, d :: rest =>
    ((get_new_blasters (reconcileOne db d).1 rest).1,
      (reconcileOne db d).2 + (get_new_blasters (reconcileOne db d).1 rest).2)

/-- `Blaster.put_name(name)`: if any record's `name` LIKE-matches the
requested name, return `False` and change nothing; otherwise set this
record's name (identified by its key) and `save()`, returning `True`. -/
def put_name (db : List Blaster) (uid : Nat) (newName : Str) : List Blaster × Bool :=
  match db.find? fun b =>
      match b.name with
      | some n => likeMatch n newName
      | none => false with
  | some _ => (db, false)
  | none =>
    (updateFirst (fun b => b.uid == uid)
      (fun b => { b with name := some newName }) db, true)

/-! ## Device session layer: `Blaster.device`, `send_command`,
`send_command_to_all_blasters`, `Blaster.get_command` -/

/-- Outcome of `device.auth()` for one blaster: success, a
`NetworkTimeoutError` (the only exception the source catches), or an
authentication rejection (`AuthenticationError`, not caught). -/
inductive AuthOutcome
  | ok
  | timeout
  | rejected
deriving DecidableEq, Repr

/-- Python exceptions that can escape the embedded functions. -/
inductive Exn
  | authenticationError
  | transportError
  | malformedInput
deriving DecidableEq, Repr

/-- Behaviour of the external `broadlink` library during one operation:
per-blaster `auth()` outcome, whether `send_data` succeeds (otherwise it
raises a transport error), and the bytes (or transient
`ReadError`/`StorageError`, modelled as `none`) produced by `check_data`
at each discrete poll time. -/
structure DeviceEnv where
  auth : Blaster → AuthOutcome
  sendOk : Blaster → Bool
  poll : Nat → Option (List Nat)

/-- `Blaster.device`: construct `broadlink.rm`/`broadlink.rm4` (the `rm2`
vs other dispatch only selects the constructor; both behave identically
here) with `dec_hex(self.mac_hex)` — which raises on malformed hex — then
`auth()`. A `NetworkTimeoutError` is caught and yields `None`; an
authentication rejection propagates. -/
def Blaster.device (env : DeviceEnv) (b : Blaster) : Except Exn (Option Unit) :=
  match dec_hex b.mac_hex with
  | none => .error .malformedInput
  | some _ =>
    match env.auth b with
    | .ok => .ok (some ())
    | .timeout => .ok none
    | .rejected => .error .authenticationError

/-- `Blaster.send_command(command)` (and the identical `send_raw`):
`False` when `self.device` is `None`; otherwise
`device.send_data(dec_b64(command.value))` then `True`. A decode failure
or a `send_data` failure raises. -/
def send_command (env : DeviceEnv) (b : Blaster) (command : Str) : Except Exn Bool :=
  match Blaster.device env b with
  | .error e => .error e
  | .ok none => .ok false
  | .ok (some _) =>
    match dec_b64 command with
    | none => .error .malformedInput
    | some _ => if env.sendOk b then .ok true else .error .transportError

/-- `send_command_to_all_blasters(command)`: invoke `send_command` on each
record in turn, with no exception handling around the loop body. -/
def send_command_to_all_blasters (env : DeviceEnv) (db : List Blaster) (command : Str) :
    Except Exn Unit :=
  match db with
  | [] => .ok ()
  | b :: rest =>
    match send_command env b command with
    | .error e => .error e
    | .ok _ => send_command_to_all_blasters env rest command

/-- Instrumentation of `send_command_to_all_blasters` under the same
control flow: the keys of the records on which `send_command` was actually
invoked (an escaping exception ends the iteration). -/
def broadcast_attempts (env : DeviceEnv) (db : List Blaster) (command : Str) : List Nat :=
  match db with
  | [] => []
  | b :: rest =>
    match send_command env b command with
    | .error _ => [b.uid]
    | .ok _ => b.uid :: broadcast_attempts env rest command

/-- The polling loop of `Blaster.get_command`:
`while time.time() - start < LEARNING_TIMEOUT: time.sleep(1); value = check_data() …`.
The first argument is the remaining whole seconds (`timeout - t`), the
second the elapsed time `t`; each iteration sleeps one unit, then polls.
Returns the captured value (`none` on `while`-`else` timeout) and the
elapsed time at exit. -/
def learn_loopAux (poll : Nat → Option (List Nat)) : Nat → Nat → Option (List Nat) × Nat
  | 0, t => (none, t)
  | r + 1, t =>
    match poll (t + 1) with
    | none => learn_loopAux poll r (t + 1)
    | some v => (some v, t + 1)

/-- The polling loop started at elapsed time 0 with deadline `timeout`
(`LEARNING_TIMEOUT`, default 30). -/
def learn_loop (poll : Nat → Option (List Nat)) (timeout : Nat) : Option (List Nat) × Nat :=
  learn_loopAux poll timeout 0

/-- Result of `Blaster.get_command`, mirroring the three distinct Python
return values: `False` (no device session), `None` (learning failed), or
the base64-encoded capture. -/
inductive LearnResult
  | noDevice
  | noCommand
  | command (s : Str)
deriving DecidableEq, Repr

/-- `Blaster.get_command()`: open a session (`False` if that yields
`None`), `enter_learning()`, poll up to the deadline (`None` on timeout),
then return the base64 capture if it is non-empty after stripping zero
bytes, else `None`. The source's `try: return enc_b64(value) except:
return None` is modelled with the total `enc_b64`. -/
def get_command (env : DeviceEnv) (b : Blaster) (timeout : Nat) : Except Exn LearnResult :=
  match Blaster.device env b with
  | .error e => .error e
  | .ok none => .ok .noDevice
  | .ok (some _) =>
    match learn_loop env.poll timeout with
    | (none, _) => .ok .noCommand
    | (some v, _) =>
      if v ≠ [] ∧ v.filter (fun x => x ≠ 0) ≠ [] then .ok (.command (enc_b64 v))
      else .ok .noCommand

/-! ## Test fixtures and proof-layer notions -/

/-- Strings untouched by lowercasing (the canonical MAC forms). -/
def lowerFixed (s : Str) : Prop :=
  ∀ c ∈ s, c.toLower = c

/-- The canonical shape, relative to a discovered device `d`, of the
record that a reconciliation pass leaves behind for `d`: its display MAC
is the one computed from `d`, and its two MAC fields are mutually
consistent and in canonical (lowercase) form. -/
def canonicalRec (d : Discovered) (b : Blaster) : Prop :=
  b.mac = friendly_mac_from_hex (enc_hex d.mac) ∧
  b.mac = friendly_mac_from_hex b.mac_hex ∧
  lowerFixed b.mac_hex

def cexBlaster : Blaster :=
  { uid := 1, ip := "10.0.0.1".toList, port := 80, devtype := 1,
    devicetype := "rm2".toList, mac := "01:02:03:04:05:06".toList,
    mac_hex := "010203040506".toList, name := some ("den".toList) }

def cexDisc : Discovered :=
  { host_ip := "10.0.0.2".toList, host_port := 81, devtype := 2,
    model_tag := "RM4".toList, mac := [1, 2, 3, 4, 5, 6] }

example : (reconcileOne [cexBlaster] cexDisc).1.map (fun b => b.devicetype) =
    [("rm2".toList)] := by decide
example : (reconcileOne [cexBlaster] cexDisc).1.map (fun b => b.devtype) = [1] := by decide
example : (reconcileOne [cexBlaster] cexDisc).1.map (fun b => b.ip) =
    [("10.0.0.2".toList)] := by decide

deriving instance DecidableEq for Except

def cexB1 : Blaster :=
  { uid := 1, ip := "10.0.0.1".toList, port := 80, devtype := 1,
    devicetype := "rm2".toList, mac := "0a:0b:0c:0d:0e:0f".toList,
    mac_hex := "0a0b0c0d0e0f".toList, name := none }

def cexB2 : Blaster :=
  { uid := 2, ip := "10.0.0.2".toList, port := 80, devtype := 1,
    devicetype := "rm4".toList, mac := "1a:1b:1c:1d:1e:1f".toList,
    mac_hex := "1a1b1c1d1e1f".toList, name := none }

def cexCmd : Str := "AAAA".toList

def cexEnvTransport : DeviceEnv :=
  { auth := fun _ => .ok, sendOk := fun b => b.uid == 2, poll := fun _ => none }

def cexEnvAuthTimeout : DeviceEnv :=
  { auth := fun b => if b.uid == 1 then .timeout else .ok,
    sendOk := fun _ => true, poll := fun _ => none }

def cexEnvReject : DeviceEnv :=
  { auth := fun _ => .rejected, sendOk := fun _ => true, poll := fun _ => none }

def cexPollEmpty : Nat → Option (List Nat) := fun t => if t == 1 then some [] else none

def cexEnvLearn : DeviceEnv :=
  { auth := fun _ => .ok, sendOk := fun _ => true, poll := cexPollEmpty }

def cexEnvAllNone : DeviceEnv :=
  { auth := fun _ => .ok, sendOk := fun _ => true, poll := fun _ => none }

def cexD1 : Discovered :=
  { host_ip := "10.0.0.5".toList, host_port := 80, devtype := 1,
    model_tag := "RM2".toList, mac := [1, 2, 3, 4, 5, 6] }

def cexD2 : Discovered :=
  { host_ip := "10.0.0.6".toList, host_port := 81, devtype := 1,
    model_tag := "RM2".toList, mac := [1, 2, 3, 4, 5, 6] }

def cexD3 : Discovered :=
  { host_ip := "10.0.0.7".toList, host_port := 80, devtype := 2,
    model_tag := "RM4".toList, mac := [9, 8, 7, 6, 5, 4] }

/-! ## Codec lemmas -/

theorem friendly_explicit (s : Str) :
    friendly_mac_from_hex s =
      s.take 2 ++ ':' :: (s.drop 2).take 2 ++ ':' :: (s.drop 4).take 2 ++
        ':' :: (s.drop 6).take 2 ++ ':' :: (s.drop 8).take 2 ++ ':' :: (s.drop 10).take 2 := by
  show List.intercalate [':']
      ((List.map (fun x => (s.drop (x * 2)).take 2)) [0, 1, 2, 3, 4, 5]) = _
  simp [List.intercalate, List.intersperse]

theorem enc_hex_cons (a : Nat) (t : List Nat) :
    enc_hex (a :: t) = hexDigitChar (a / 16) :: hexDigitChar (a % 16) :: enc_hex t := by
  simp [enc_hex, enc_hex_byte]

theorem hexDigitVal_hexDigitChar (n : Nat) (h : n < 16) :
    hexDigitVal (hexDigitChar n) = some n := by
  interval_cases n <;> decide

theorem dec_enc_hex (l : List Nat) (h : ∀ b ∈ l, b < 256) :
    dec_hex (enc_hex l) = some l := by
  induction l with
  | nil => rfl
  | cons a t ih =>
    have ha : a < 256 := h a (by simp)
    have h1 : a / 16 < 16 := by omega
    have h2 : a % 16 < 16 := by omega
    rw [enc_hex_cons, dec_hex, hexDigitVal_hexDigitChar _ h1, hexDigitVal_hexDigitChar _ h2]
    rw [ih (fun b hb => h b (by simp [hb]))]
    simp
    omega

theorem b64Val_b64Char (n : Nat) (h : n < 64) : b64Val (b64Char n) = some n := by
  interval_cases n <;> decide

theorem b64Char_ne_pad (n : Nat) (h : n < 64) : b64Char n ≠ '=' := by
  interval_cases n <;> decide

theorem dec_encB64Core (l : List Nat) (h : ∀ b ∈ l, b < 256) :
    decB64Core (encB64Core l) = some l := by
  induction l using encB64Core.induct with
  | case1 a b c rest ih =>
    have ha : a < 256 := h a (by simp)
    have hb : b < 256 := h b (by simp)
    have hc : c < 256 := h c (by simp)
    have s0 : a / 4 < 64 := by omega
    have s1 : a % 4 * 16 + b / 16 < 64 := by omega
    have s2 : b % 16 * 4 + c / 64 < 64 := by omega
    have s3 : c % 64 < 64 := by omega
    rw [encB64Core, decB64Core]
    simp only [b64Val_b64Char _ s0, b64Val_b64Char _ s1, b64Val_b64Char _ s2,
      b64Val_b64Char _ s3, if_neg (b64Char_ne_pad _ s2), if_neg (b64Char_ne_pad _ s3),
      ih (fun x hx => h x (by simp [hx])), Option.map_some', Option.some.injEq,
      List.cons.injEq, and_true, true_and]
    omega
  | case2 a b =>
    have ha : a < 256 := h a (by simp)
    have hb : b < 256 := h b (by simp)
    have s0 : a / 4 < 64 := by omega
    have s1 : a % 4 * 16 + b / 16 < 64 := by omega
    have s2 : b % 16 * 4 < 64 := by omega
    rw [encB64Core, decB64Core]
    simp only [b64Val_b64Char _ s0, b64Val_b64Char _ s1, b64Val_b64Char _ s2,
      if_neg (b64Char_ne_pad _ s2), if_pos rfl, Option.some.injEq, List.cons.injEq, and_true, true_and]
    simp only [reduceIte, Option.some.injEq, List.cons.injEq, and_true, true_and]
    omega
  | case3 a =>
    have ha : a < 256 := h a (by simp)
    have s0 : a / 4 < 64 := by omega
    have s1 : a % 4 * 16 < 64 := by omega
    rw [encB64Core, decB64Core]
    simp only [b64Val_b64Char _ s0, b64Val_b64Char _ s1, reduceIte, and_self,
      Option.some.injEq, List.cons.injEq, and_true, true_and]
    omega
  | case4 => rfl

theorem isB64Token_b64Char (n : Nat) (h : n < 64) : isB64Token (b64Char n) = true := by
  simp [isB64Token, b64Val_b64Char _ h]

theorem encB64Core_tokens (l : List Nat) (h : ∀ b ∈ l, b < 256) :
    ∀ c ∈ encB64Core l, isB64Token c = true := by
  induction l using encB64Core.induct with
  | case1 a b c rest ih =>
    have ha : a < 256 := h a (by simp)
    have hb : b < 256 := h b (by simp)
    have hc : c < 256 := h c (by simp)
    intro x hx
    rw [encB64Core] at hx
    simp only [List.mem_cons] at hx
    rcases hx with rfl | rfl | rfl | rfl | hx
    · exact isB64Token_b64Char _ (by omega)
    · exact isB64Token_b64Char _ (by omega)
    · exact isB64Token_b64Char _ (by omega)
    · exact isB64Token_b64Char _ (by omega)
    · exact ih (fun y hy => h y (by simp [hy])) x hx
  | case2 a b =>
    have ha : a < 256 := h a (by simp)
    have hb : b < 256 := h b (by simp)
    intro x hx
    rw [encB64Core] at hx
    simp only [List.mem_cons, List.not_mem_nil, or_false] at hx
    rcases hx with rfl | rfl | rfl | rfl
    · exact isB64Token_b64Char _ (by omega)
    · exact isB64Token_b64Char _ (by omega)
    · exact isB64Token_b64Char _ (by omega)
    · decide
  | case3 a =>
    have ha : a < 256 := h a (by simp)
    intro x hx
    rw [encB64Core] at hx
    simp only [List.mem_cons, List.not_mem_nil, or_false] at hx
    rcases hx with rfl | rfl | rfl | rfl
    · exact isB64Token_b64Char _ (by omega)
    · exact isB64Token_b64Char _ (by omega)
    · decide
    · decide
  | case4 => intro x hx; simp [encB64Core] at hx

theorem filter_wrap76Aux (fuel : Nat) :
    ∀ s : Str, s.length ≤ fuel → (∀ c ∈ s, isB64Token c = true) →
      (wrap76Aux fuel s).filter isB64Token = s := by
  induction fuel with
  | zero =>
    intro s hlen _
    have : s = [] := List.eq_nil_of_length_eq_zero (by omega)
    subst this
    rfl
  | succ fuel ih =>
    intro s hlen htok
    match s with
    | [] => rfl
    | c :: cs =>
      have hw : wrap76Aux (fuel + 1) (c :: cs) =
          (c :: cs).take 76 ++ '\n' :: wrap76Aux fuel ((c :: cs).drop 76) := by
        (rw [wrap76Aux]; simp)
      rw [hw, List.filter_append, List.filter_cons]
      have hnl : isB64Token '\n' = false := by decide
      rw [hnl]
      simp only [Bool.false_eq_true, if_false]
      rw [List.filter_eq_self.mpr (fun x hx => htok x (List.take_subset _ _ hx))]
      have hdl : ((c :: cs).drop 76).length ≤ fuel := by
        simp only [List.length_drop, List.length_cons]
        simp only [List.length_cons] at hlen
        omega
      rw [ih ((c :: cs).drop 76) hdl (fun x hx => htok x (List.drop_subset _ _ hx))]
      exact List.take_append_drop 76 (c :: cs)

theorem dec_enc_b64 (l : List Nat) (h : ∀ b ∈ l, b < 256) :
    dec_b64 (enc_b64 l) = some l := by
  rw [dec_b64, enc_b64,
    filter_wrap76Aux _ _ (le_refl _) (encB64Core_tokens l h),
    dec_encB64Core l h]

/-! ## Claim C1 (corrected): `friendly_mac_from_hex` does NOT reverse byte
order; it joins the hex pairs in their original order. -/

/-- C1, counterexample: the spec's example is false on the code —
`friendly_mac_from_hex "0a1b2c3d4e5f"` is not `"5f:4e:3d:2c:1b:0a"`. -/
theorem c1_mac_display_not_reversed :
    friendly_mac_from_hex ("0a1b2c3d4e5f".toList) ≠ ("5f:4e:3d:2c:1b:0a".toList) := by
  decide

/-- C1, amended: for every 12-hex-digit MAC string, `friendly_mac_from_hex`
keeps the byte pairs in their original order and joins them with colons;
in particular the example input maps to `"0a:1b:2c:3d:4e:5f"`. -/
theorem c1_mac_display_pairs_in_order :
    (∀ c0 c1 c2 c3 c4 c5 c6 c7 c8 c9 c10 c11 : Char,
      friendly_mac_from_hex [c0, c1, c2, c3, c4, c5, c6, c7, c8, c9, c10, c11] =
        [c0, c1, ':', c2, c3, ':', c4, c5, ':', c6, c7, ':', c8, c9, ':', c10, c11]) ∧
    friendly_mac_from_hex ("0a1b2c3d4e5f".toList) = ("0a:1b:2c:3d:4e:5f".toList) := by
  constructor
  · intro c0 c1 c2 c3 c4 c5 c6 c7 c8 c9 c10 c11
    rfl
  · decide

/-! ## Claim C8 (confirmed): both codecs round-trip. -/

/-- C8: for every byte sequence `b`, `dec_hex (enc_hex b) = b` and
`dec_b64 (enc_b64 b) = b`. -/
theorem c8_codec_round_trip (l : List Nat) (h : ∀ b ∈ l, b < 256) :
    dec_hex (enc_hex l) = some l ∧ dec_b64 (enc_b64 l) = some l :=
  ⟨dec_enc_hex l h, dec_enc_b64 l h⟩

/-- C8 witness: the round trips at the concrete byte string `[0, 127, 255, 16]`. -/
theorem c8_codec_round_trip_witness :
    dec_hex (enc_hex [0, 127, 255, 16]) = some [0, 127, 255, 16] ∧
    dec_b64 (enc_b64 [0, 127, 255, 16]) = some [0, 127, 255, 16] :=
  c8_codec_round_trip [0, 127, 255, 16] (by decide)

/-! ## Registry lemmas -/

theorem hexDigitChar_toLower (n : Nat) : (hexDigitChar n).toLower = hexDigitChar n := by
  by_cases h : n < 16
  · interval_cases n <;> decide
  · rw [hexDigitChar, List.getD_eq_default]
    · decide
    · simp
      omega

theorem lowerFixed_enc_hex (raw : List Nat) : lowerFixed (enc_hex raw) := by
  induction raw with
  | nil => intro c hc; simp [enc_hex] at hc
  | cons a t ih =>
    intro c hc
    rw [enc_hex_cons] at hc
    simp only [List.mem_cons] at hc
    rcases hc with rfl | rfl | hc
    · exact hexDigitChar_toLower _
    · exact hexDigitChar_toLower _
    · exact ih c hc

theorem mem_friendly {c : Char} {s : Str} (h : c ∈ friendly_mac_from_hex s) :
    c ∈ s ∨ c = ':' := by
  rw [friendly_explicit] at h
  simp only [List.mem_append, List.mem_cons] at h
  rcases h with ((((h | h | h) | h | h) | h | h) | h | h) | h | h
  all_goals first
    | (left; exact List.take_subset _ _ h)
    | (left; exact List.drop_subset _ _ (List.take_subset _ _ h))
    | (right; exact h)

theorem lowerFixed_friendly {s : Str} (h : lowerFixed s) :
    lowerFixed (friendly_mac_from_hex s) := by
  intro c hc
  rcases mem_friendly hc with hm | rfl
  · exact h c hm
  · decide

theorem likeMatch_refl (s : Str) : likeMatch s s = true := by
  simp [likeMatch]

theorem map_toLower_eq_self {s : Str} (h : lowerFixed s) : s.map Char.toLower = s := by
  induction s with
  | nil => rfl
  | cons c t ih =>
    simp only [List.map_cons, h c (by simp)]
    rw [ih (fun x hx => h x (by simp [hx]))]

theorem likeMatch_eq {a b : Str} (ha : lowerFixed a) (hb : lowerFixed b)
    (h : likeMatch a b = true) : a = b := by
  rw [likeMatch, map_toLower_eq_self ha, map_toLower_eq_self hb, beq_iff_eq] at h
  exact h

theorem updateFirst_length (p : Blaster → Bool) (f : Blaster → Blaster) (db : List Blaster) :
    (updateFirst p f db).length = db.length := by
  induction db with
  | nil => rfl
  | cons b rest ih =>
    rw [updateFirst]
    by_cases h : p b
    · simp [h]
    · simp [h, ih]

theorem mem_updateFirst {b : Blaster} {db : List Blaster}
    (p : Blaster → Bool) (f : Blaster → Blaster) (h : b ∈ db) :
    b ∈ updateFirst p f db ∨ (p b = true ∧ f b ∈ updateFirst p f db) := by
  induction db with
  | nil => simp at h
  | cons x rest ih =>
    rw [updateFirst]
    rcases List.mem_cons.mp h with rfl | hmem
    · by_cases hp : p b
      · right; exact ⟨hp, by simp [hp]⟩
      · left; simp [hp]
    · by_cases hp : p x
      · left; simp [hp, hmem]
      · rcases ih hmem with h1 | ⟨h1, h2⟩
        · left; simp [hp, h1]
        · right; exact ⟨h1, by simp [hp, h2]⟩

theorem find?_decomp {p : Blaster → Bool} {db : List Blaster} {b : Blaster}
    (h : db.find? p = some b) :
    ∃ pre post, db = pre ++ b :: post ∧ (∀ x ∈ pre, p x = false) ∧ p b = true ∧
      ∀ f, updateFirst p f db = pre ++ f b :: post := by
  induction db with
  | nil => simp at h
  | cons x rest ih =>
    by_cases hp : p x
    · rw [List.find?_cons_of_pos _ hp] at h
      injection h with h
      subst h
      exact ⟨[], rest, rfl, by simp, hp, fun f => by simp [updateFirst, hp]⟩
    · rw [List.find?_cons_of_neg _ hp] at h
      obtain ⟨pre, post, hdb, hpre, hb, hupd⟩ := ih h
      refine ⟨x :: pre, post, by simp [hdb], ?_, hb, ?_⟩
      · intro y hy
        rcases List.mem_cons.mp hy with rfl | hy
        · simpa using hp
        · exact hpre y hy
      · intro f
        rw [updateFirst, if_neg hp, hupd f]
        simp

theorem updateFirst_append_none {p : Blaster → Bool} {l1 : List Blaster}
    (f : Blaster → Blaster) (l2 : List Blaster) (h : ∀ x ∈ l1, p x = false) :
    updateFirst p f (l1 ++ l2) = l1 ++ updateFirst p f l2 := by
  induction l1 with
  | nil => rfl
  | cons x rest ih =>
    rw [List.cons_append, updateFirst, if_neg (by simp [h x (by simp)])]
    rw [ih (fun y hy => h y (by simp [hy]))]
    rfl

theorem canonical_upd_hex {d d' : Discovered} {b : Blaster}
    (hc : canonicalRec d b) (hp : likeMatch b.mac_hex (enc_hex d'.mac) = true) :
    canonicalRec d (reconcileUpd d' b) := by
  obtain ⟨h1, h2, h3⟩ := hc
  have heq : b.mac_hex = enc_hex d'.mac := likeMatch_eq h3 (lowerFixed_enc_hex _) hp
  refine ⟨?_, ?_, ?_⟩
  · show friendly_mac_from_hex (enc_hex d'.mac) = _
    rw [← heq, ← h2, h1]
  · rfl
  · exact lowerFixed_enc_hex _

theorem canonical_upd_mac {d d' : Discovered} {b : Blaster}
    (hc : canonicalRec d b)
    (hp : likeMatch b.mac (friendly_mac_from_hex (enc_hex d'.mac)) = true) :
    canonicalRec d (reconcileUpd d' b) := by
  obtain ⟨h1, h2, h3⟩ := hc
  have hbl : lowerFixed b.mac := h2 ▸ lowerFixed_friendly h3
  have heq : b.mac = friendly_mac_from_hex (enc_hex d'.mac) :=
    likeMatch_eq hbl (lowerFixed_friendly (lowerFixed_enc_hex _)) hp
  refine ⟨?_, rfl, lowerFixed_enc_hex _⟩
  show friendly_mac_from_hex (enc_hex d'.mac) = _
  rw [← heq, h1]

theorem canonical_create {db : List Blaster} {d : Discovered} :
    canonicalRec d (createBlaster db d) :=
  ⟨rfl, rfl, lowerFixed_enc_hex _⟩

theorem canonical_upd_self {d : Discovered} {b : Blaster} :
    canonicalRec d (reconcileUpd d b) :=
  ⟨rfl, rfl, lowerFixed_enc_hex _⟩

theorem reconcileOne_preserves {d : Discovered} {b : Blaster} {db : List Blaster}
    (d' : Discovered) (hb : b ∈ db) (hc : canonicalRec d b) :
    ∃ b' ∈ (reconcileOne db d').1, canonicalRec d b' := by
  rw [reconcileOne]
  cases hf1 : db.find? fun x => likeMatch x.mac_hex (enc_hex d'.mac) with
  | some w =>
    rcases mem_updateFirst (fun x => likeMatch x.mac_hex (enc_hex d'.mac))
        (reconcileUpd d') hb with h | ⟨hp, h⟩
    · exact ⟨b, h, hc⟩
    · exact ⟨reconcileUpd d' b, h, canonical_upd_hex hc hp⟩
  | none =>
    cases hf2 : db.find? fun x =>
        likeMatch x.mac (friendly_mac_from_hex (enc_hex d'.mac)) with
    | some w =>
      rcases mem_updateFirst (fun x => likeMatch x.mac (friendly_mac_from_hex (enc_hex d'.mac)))
          (reconcileUpd d') hb with h | ⟨hp, h⟩
      · exact ⟨b, h, hc⟩
      · exact ⟨reconcileUpd d' b, h, canonical_upd_mac hc hp⟩
    | none =>
      exact ⟨b, by simp [hb], hc⟩

theorem reconcileOne_establishes (db : List Blaster) (d : Discovered) :
    ∃ b' ∈ (reconcileOne db d).1, canonicalRec d b' := by
  rw [reconcileOne]
  cases hf1 : db.find? fun x => likeMatch x.mac_hex (enc_hex d.mac) with
  | some w =>
    obtain ⟨pre, post, hdb, hpre, hw, hupd⟩ := find?_decomp hf1
    refine ⟨reconcileUpd d w, ?_, canonical_upd_self⟩
    rw [hupd]
    simp
  | none =>
    cases hf2 : db.find? fun x =>
        likeMatch x.mac (friendly_mac_from_hex (enc_hex d.mac)) with
    | some w =>
      obtain ⟨pre, post, hdb, hpre, hw, hupd⟩ := find?_decomp hf2
      refine ⟨reconcileUpd d w, ?_, canonical_upd_self⟩
      rw [hupd]
      simp
    | none =>
      exact ⟨createBlaster db d, by simp, canonical_create⟩

theorem reconcileOne_matched {db : List Blaster} {d : Discovered}
    (h : ∃ b ∈ db, canonicalRec d b) :
    (reconcileOne db d).2 = 0 ∧ (reconcileOne db d).1.length = db.length := by
  rw [reconcileOne]
  cases hf1 : db.find? fun x => likeMatch x.mac_hex (enc_hex d.mac) with
  | some w => exact ⟨rfl, updateFirst_length _ _ _⟩
  | none =>
    cases hf2 : db.find? fun x =>
        likeMatch x.mac (friendly_mac_from_hex (enc_hex d.mac)) with
    | some w => exact ⟨rfl, updateFirst_length _ _ _⟩
    | none =>
      obtain ⟨b, hb, hc1, _, _⟩ := h
      have : likeMatch b.mac (friendly_mac_from_hex (enc_hex d.mac)) = true := by
        rw [hc1]
        exact likeMatch_refl _
      have := List.find?_eq_none.mp hf2 b hb
      simp_all

theorem find?_append_none {p : Blaster → Bool} {l1 : List Blaster}
    (l2 : List Blaster) (h : l1.find? p = none) :
    (l1 ++ l2).find? p = l2.find? p := by
  induction l1 with
  | nil => rfl
  | cons x rest ih =>
    have hall := List.find?_eq_none.mp h
    have hx : ¬ p x = true := hall x (by simp)
    rw [List.cons_append, List.find?_cons_of_neg _ hx,
      ih (List.find?_eq_none.mpr fun a ha => hall a (by simp [ha]))]

theorem pass_preserves {d : Discovered} (D : List Discovered) (db : List Blaster)
    (h : ∃ b ∈ db, canonicalRec d b) :
    ∃ b ∈ (get_new_blasters db D).1, canonicalRec d b := by
  induction D generalizing db with
  | nil => simpa [get_new_blasters] using h
  | cons d' rest ih =>
    rw [get_new_blasters]
    obtain ⟨b, hb, hc⟩ := h
    exact ih _ (reconcileOne_preserves d' hb hc)

theorem pass_establishes (D : List Discovered) (db : List Blaster) :
    ∀ d ∈ D, ∃ b ∈ (get_new_blasters db D).1, canonicalRec d b := by
  induction D generalizing db with
  | nil => simp
  | cons d' rest ih =>
    intro d hd
    rw [get_new_blasters]
    rcases List.mem_cons.mp hd with rfl | hd
    · exact pass_preserves rest _ (reconcileOne_establishes db d)
    · exact ih _ d hd

theorem pass_matched (D : List Discovered) (db : List Blaster)
    (h : ∀ d ∈ D, ∃ b ∈ db, canonicalRec d b) :
    (get_new_blasters db D).2 = 0 ∧ (get_new_blasters db D).1.length = db.length := by
  induction D generalizing db with
  | nil => simp [get_new_blasters]
  | cons d' rest ih =>
    rw [get_new_blasters]
    obtain ⟨hz, hl⟩ := reconcileOne_matched (h d' (by simp))
    have hrest : ∀ d ∈ rest, ∃ b ∈ (reconcileOne db d').1, canonicalRec d b := by
      intro d hd
      obtain ⟨b, hb, hc⟩ := h d (by simp [hd])
      exact reconcileOne_preserves d' hb hc
    obtain ⟨hz2, hl2⟩ := ih _ hrest
    exact ⟨by simp [hz, hz2], by simp [hl2, hl]⟩

theorem dedup_create {db : List Blaster} {d1 d2 : Discovered} (hmac : d1.mac = d2.mac)
    (h1 : db.find? (fun b => likeMatch b.mac_hex (enc_hex d2.mac)) = none)
    (h2 : db.find? (fun b => likeMatch b.mac (friendly_mac_from_hex (enc_hex d2.mac))) = none) :
    reconcileOne db d1 = (db ++ [createBlaster db d1], 1) := by
  rw [reconcileOne, hmac, h1, h2]

theorem dedup_update {db : List Blaster} {d1 d2 : Discovered} (hmac : d1.mac = d2.mac)
    (h1 : db.find? (fun b => likeMatch b.mac_hex (enc_hex d2.mac)) = none) :
    reconcileOne (db ++ [createBlaster db d1]) d2 =
      (db ++ [reconcileUpd d2 (createBlaster db d1)], 0) := by
  have hpc : likeMatch (createBlaster db d1).mac_hex (enc_hex d2.mac) = true := by
    show likeMatch (enc_hex d1.mac) (enc_hex d2.mac) = true
    rw [hmac]
    exact likeMatch_refl _
  have hfind : (db ++ [createBlaster db d1]).find?
      (fun b => likeMatch b.mac_hex (enc_hex d2.mac)) = some (createBlaster db d1) := by
    rw [find?_append_none _ h1]
    exact List.find?_cons_of_pos [] hpc
  rw [reconcileOne, hfind]
  rw [updateFirst_append_none _ _ (fun x hx => by
    simpa using List.find?_eq_none.mp h1 x hx)]
  rw [updateFirst, if_pos hpc]

/-- C2: reconciliation is idempotent — a second `get_new_blasters` pass over
the same discovery result set creates zero new records and leaves the record
count unchanged — and MAC is the sole dedup key: two passes reporting the
same MAC with different IPs leave exactly one record for that MAC, whose
`ip` is the most recently reconciled value. -/
theorem c2_reconcile_idempotent_and_dedup (db : List Blaster) (D : List Discovered)
    (d1 d2 : Discovered) (hmac : d1.mac = d2.mac)
    (h1 : db.find? (fun b => likeMatch b.mac_hex (enc_hex d2.mac)) = none)
    (h2 : db.find? (fun b => likeMatch b.mac (friendly_mac_from_hex (enc_hex d2.mac))) = none) :
    ((get_new_blasters (get_new_blasters db D).1 D).2 = 0 ∧
      (get_new_blasters (get_new_blasters db D).1 D).1.length =
        (get_new_blasters db D).1.length) ∧
    (((get_new_blasters (get_new_blasters db [d1]).1 [d2]).1.filter
        (fun b => b.mac_hex == enc_hex d2.mac)).length = 1 ∧
      ∀ b ∈ (get_new_blasters (get_new_blasters db [d1]).1 [d2]).1,
        b.mac_hex = enc_hex d2.mac → b.ip = d2.host_ip) := by
  constructor
  · exact pass_matched D _ (pass_establishes D db)
  · have hp1 : (get_new_blasters db [d1]).1 = db ++ [createBlaster db d1] := by
      simp [get_new_blasters, dedup_create hmac h1 h2]
    have hp2 : (get_new_blasters (db ++ [createBlaster db d1]) [d2]).1 =
        db ++ [reconcileUpd d2 (createBlaster db d1)] := by
      simp [get_new_blasters, dedup_update hmac h1]
    rw [hp1, hp2]
    have hdbf : ∀ b ∈ db, (b.mac_hex == enc_hex d2.mac) = false := by
      intro b hb
      by_contra hc
      have : b.mac_hex = enc_hex d2.mac := by
        simpa [beq_iff_eq] using hc
      have hlm : likeMatch b.mac_hex (enc_hex d2.mac) = true := by
        rw [this]
        exact likeMatch_refl _
      have := List.find?_eq_none.mp h1 b hb
      simp_all
    constructor
    · rw [List.filter_append]
      rw [List.filter_eq_nil_iff.mpr (fun b hb => by simp [hdbf b hb])]
      have : (reconcileUpd d2 (createBlaster db d1)).mac_hex = enc_hex d2.mac := rfl
      simp [List.filter_cons, this]
    · intro b hb hbm
      rcases List.mem_append.mp hb with hd | hd
      · exact absurd (by simpa [beq_iff_eq] using hbm) (by simpa using hdbf b hd)
      · have : b = reconcileUpd d2 (createBlaster db d1) := by simpa using hd
        rw [this]
        rfl

theorem enc_hex_length (l : List Nat) : (enc_hex l).length = 2 * l.length := by
  induction l with
  | nil => rfl
  | cons a t ih =>
    rw [enc_hex_cons]
    simp [ih]
    omega

theorem enc_hex_inj {l1 l2 : List Nat} (h1 : ∀ b ∈ l1, b < 256) (h2 : ∀ b ∈ l2, b < 256)
    (h : enc_hex l1 = enc_hex l2) : l1 = l2 := by
  have := dec_enc_hex l1 h1
  rw [h, dec_enc_hex l2 h2] at this
  injection this with this
  exact this.symm

theorem hexDigitChar_ne_colon (n : Nat) : hexDigitChar n ≠ ':' := by
  by_cases h : n < 16
  · interval_cases n <;> decide
  · rw [hexDigitChar, List.getD_eq_default]
    · decide
    · simp
      omega

theorem enc_hex_no_colon (l : List Nat) : ∀ c ∈ enc_hex l, (c != ':') = true := by
  induction l with
  | nil => intro c hc; simp [enc_hex] at hc
  | cons a t ih =>
    intro c hc
    rw [enc_hex_cons] at hc
    simp only [List.mem_cons] at hc
    rcases hc with rfl | rfl | hc
    · simpa using hexDigitChar_ne_colon _
    · simpa using hexDigitChar_ne_colon _
    · exact ih c hc

theorem filter_friendly {s : Str} (hlen : s.length = 12)
    (hnc : ∀ c ∈ s, (c != ':') = true) :
    (friendly_mac_from_hex s).filter (fun c => c != ':') = s := by
  rw [friendly_explicit]
  have hcolon : (((':' : Char) != ':') = true) = False := by simp
  simp only [List.filter_append, List.filter_cons, hcolon, if_false]
  rw [List.filter_eq_self.mpr (fun x hx => hnc x (List.take_subset _ _ hx)),
    List.filter_eq_self.mpr (fun x hx => hnc x (List.drop_subset _ _ (List.take_subset _ _ hx))),
    List.filter_eq_self.mpr (fun x hx => hnc x (List.drop_subset _ _ (List.take_subset _ _ hx))),
    List.filter_eq_self.mpr (fun x hx => hnc x (List.drop_subset _ _ (List.take_subset _ _ hx))),
    List.filter_eq_self.mpr (fun x hx => hnc x (List.drop_subset _ _ (List.take_subset _ _ hx))),
    List.filter_eq_self.mpr (fun x hx => hnc x (List.drop_subset _ _ (List.take_subset _ _ hx)))]
  have h2 : ∀ k : Nat, (s.drop k).take 2 ++ (s.drop (k + 2)).take 2 ++ (s.drop (k + 4)).take 2 ++
      (s.drop (k + 6)).take 2 ++ (s.drop (k + 8)).take 2 ++ (s.drop (k + 10)).take 2 =
      (s.drop k).take 12 := by
    intro k
    rw [show (12 : Nat) = 2 + (2 + (2 + (2 + (2 + 2)))) from rfl, List.take_add,
      List.drop_drop, List.take_add, List.drop_drop, List.take_add, List.drop_drop,
      List.take_add, List.drop_drop, List.take_add, List.drop_drop]
    simp only [Nat.add_comm 2 k, Nat.add_assoc]
    simp [List.append_assoc]
  have h0 := h2 0
  simp only [List.drop_zero, Nat.zero_add] at h0
  calc _ = s.take 2 ++ (s.drop 2).take 2 ++ (s.drop 4).take 2 ++ (s.drop 6).take 2 ++
        (s.drop 8).take 2 ++ (s.drop 10).take 2 := by simp [List.append_assoc]
    _ = s.take 12 := h0
    _ = s := List.take_of_length_le (by omega)

theorem friendly_inj_enc {m1 m2 : List Nat} (hb1 : ∀ b ∈ m1, b < 256)
    (hb2 : ∀ b ∈ m2, b < 256) (hl1 : m1.length = 6) (hl2 : m2.length = 6)
    (h : friendly_mac_from_hex (enc_hex m1) = friendly_mac_from_hex (enc_hex m2)) :
    m1 = m2 := by
  have e1 : (enc_hex m1).length = 12 := by rw [enc_hex_length, hl1]
  have e2 : (enc_hex m2).length = 12 := by rw [enc_hex_length, hl2]
  have : enc_hex m1 = enc_hex m2 := by
    rw [← filter_friendly e1 (enc_hex_no_colon m1), ← filter_friendly e2 (enc_hex_no_colon m2), h]
  exact enc_hex_inj hb1 hb2 this

theorem reconcileOne_fresh {db : List Blaster} {d : Discovered}
    (h1 : db.find? (fun b => likeMatch b.mac_hex (enc_hex d.mac)) = none)
    (h2 : db.find? (fun b => likeMatch b.mac (friendly_mac_from_hex (enc_hex d.mac))) = none) :
    reconcileOne db d = (db ++ [createBlaster db d], 1) := by
  rw [reconcileOne, h1, h2]

/-- C7: reconciling N discovered devices whose MACs are pairwise distinct
and match no persisted record creates exactly N new records, each with
`name = None`, and returns `new_devices = N`; matched records are never
counted. -/
theorem c7_new_device_count (db : List Blaster) (D : List Discovered)
    (hbytes : ∀ d ∈ D, ∀ x ∈ d.mac, x < 256)
    (hlen6 : ∀ d ∈ D, d.mac.length = 6)
    (hnodup : (D.map fun d => d.mac).Nodup)
    (hfresh : ∀ d ∈ D,
      db.find? (fun b => likeMatch b.mac_hex (enc_hex d.mac)) = none ∧
      db.find? (fun b => likeMatch b.mac (friendly_mac_from_hex (enc_hex d.mac))) = none) :
    (get_new_blasters db D).2 = D.length ∧
    ∃ news, (get_new_blasters db D).1 = db ++ news ∧ news.length = D.length ∧
      ∀ b ∈ news, b.name = none := by
  induction D generalizing db with
  | nil => exact ⟨rfl, [], by simp [get_new_blasters], rfl, by simp⟩
  | cons d rest ih =>
    obtain ⟨hf1, hf2⟩ := hfresh d (by simp)
    have hstep := reconcileOne_fresh hf1 hf2
    have hdmac : d.mac ∉ rest.map fun d => d.mac := (List.nodup_cons.mp hnodup).1
    have hfresh' : ∀ d' ∈ rest,
        (db ++ [createBlaster db d]).find?
          (fun b => likeMatch b.mac_hex (enc_hex d'.mac)) = none ∧
        (db ++ [createBlaster db d]).find?
          (fun b => likeMatch b.mac (friendly_mac_from_hex (enc_hex d'.mac))) = none := by
      intro d' hd'
      obtain ⟨hg1, hg2⟩ := hfresh d' (by simp [hd'])
      have hne : d.mac ≠ d'.mac := by
        intro hEq
        exact hdmac (by rw [hEq]; exact List.mem_map_of_mem _ hd')
      constructor
      · rw [find?_append_none _ hg1]
        have : likeMatch (createBlaster db d).mac_hex (enc_hex d'.mac) = false := by
          by_contra hc
          have hlm : likeMatch (enc_hex d.mac) (enc_hex d'.mac) = true := by
            simpa using Bool.of_not_eq_false hc
          have := likeMatch_eq (lowerFixed_enc_hex _) (lowerFixed_enc_hex _) hlm
          exact hne (enc_hex_inj (hbytes d (by simp)) (hbytes d' (by simp [hd'])) this)
        rw [List.find?_cons_of_neg _ (by simpa using this), List.find?_nil]
      · rw [find?_append_none _ hg2]
        have : likeMatch (createBlaster db d).mac
            (friendly_mac_from_hex (enc_hex d'.mac)) = false := by
          by_contra hc
          have hlm : likeMatch (friendly_mac_from_hex (enc_hex d.mac))
              (friendly_mac_from_hex (enc_hex d'.mac)) = true := by
            simpa using Bool.of_not_eq_false hc
          have := likeMatch_eq (lowerFixed_friendly (lowerFixed_enc_hex _))
            (lowerFixed_friendly (lowerFixed_enc_hex _)) hlm
          exact hne (friendly_inj_enc (hbytes d (by simp)) (hbytes d' (by simp [hd']))
            (hlen6 d (by simp)) (hlen6 d' (by simp [hd'])) this)
        rw [List.find?_cons_of_neg _ (by simpa using this), List.find?_nil]
    obtain ⟨hcnt, news, hdb, hlen, hnames⟩ :=
      ih (db ++ [createBlaster db d])
        (fun d' hd' => hbytes d' (by simp [hd']))
        (fun d' hd' => hlen6 d' (by simp [hd']))
        (List.nodup_cons.mp hnodup).2
        hfresh'
    refine ⟨?_, createBlaster db d :: news, ?_, by simp [hlen], ?_⟩
    · rw [get_new_blasters]
      simp [hstep, hcnt]
      omega
    · rw [get_new_blasters]
      simp only [hstep, hdb]
      simp
    · intro b hb
      rcases List.mem_cons.mp hb with rfl | hb
      · rfl
      · exact hnames b hb

/-- C9 counterexample: a discovery match that reports a new device type
code (2, `rm4`) for a record stored as (1, `rm2`) updates `ip`, `port` and
the MAC fields but leaves `devtype` and `devicetype` unchanged —
contradicting the claim that `deviceClass` and `deviceTypeCode` are
refreshed on every match. -/
theorem c9_cex :
    (reconcileOne [cexBlaster] cexDisc).2 = 0 ∧
    (reconcileOne [cexBlaster] cexDisc).1.map (fun b => b.devtype) = [1] ∧
    (reconcileOne [cexBlaster] cexDisc).1.map (fun b => b.devicetype) = [("rm2".toList)] ∧
    cexDisc.devtype = 2 ∧ cexDisc.model_tag.map Char.toLower = ("rm4".toList) := by
  decide

/-- C9, amended: on every successful discovery match (first by `mac_hex`,
else by `mac`), the first matching record is replaced in place by
`reconcileUpd d`, which refreshes `ip`, `port`, `mac` and `mac_hex` to the
freshly discovered values and preserves `name` (never touched), `devtype`,
`devicetype` and `uid`; all other records are unchanged and nothing is
counted as new. -/
theorem c9_match_refreshes (db : List Blaster) (d : Discovered) :
    (∀ b₀, db.find? (fun b => likeMatch b.mac_hex (enc_hex d.mac)) = some b₀ →
      ∃ pre post, db = pre ++ b₀ :: post ∧
        (reconcileOne db d).1 = pre ++ reconcileUpd d b₀ :: post ∧
        (reconcileOne db d).2 = 0) ∧
    (db.find? (fun b => likeMatch b.mac_hex (enc_hex d.mac)) = none →
      ∀ b₀, db.find? (fun b => likeMatch b.mac (friendly_mac_from_hex (enc_hex d.mac))) =
          some b₀ →
        ∃ pre post, db = pre ++ b₀ :: post ∧
          (reconcileOne db d).1 = pre ++ reconcileUpd d b₀ :: post ∧
          (reconcileOne db d).2 = 0) ∧
    (∀ b : Blaster,
      (reconcileUpd d b).ip = d.host_ip ∧
      (reconcileUpd d b).port = d.host_port ∧
      (reconcileUpd d b).mac = friendly_mac_from_hex (enc_hex d.mac) ∧
      (reconcileUpd d b).mac_hex = enc_hex d.mac ∧
      (reconcileUpd d b).name = b.name ∧
      (reconcileUpd d b).devtype = b.devtype ∧
      (reconcileUpd d b).devicetype = b.devicetype ∧
      (reconcileUpd d b).uid = b.uid) := by
  refine ⟨?_, ?_, ?_⟩
  · intro b₀ hf
    obtain ⟨pre, post, hdb, hpre, hb, hupd⟩ := find?_decomp hf
    exact ⟨pre, post, hdb, by rw [reconcileOne, hf, hupd], by rw [reconcileOne, hf]⟩
  · intro hf1 b₀ hf
    obtain ⟨pre, post, hdb, hpre, hb, hupd⟩ := find?_decomp hf
    exact ⟨pre, post, hdb, by rw [reconcileOne, hf1, hf, hupd], by rw [reconcileOne, hf1, hf]⟩
  · intro b
    exact ⟨rfl, rfl, rfl, rfl, rfl, rfl, rfl, rfl⟩

/-- C9 witness: the in-place update at the concrete registry
`[cexBlaster]` matched by `cexDisc`. -/
theorem c9_match_refreshes_witness :
    [cexBlaster] = [] ++ cexBlaster :: [] ∧
    (reconcileOne [cexBlaster] cexDisc).1 = [] ++ reconcileUpd cexDisc cexBlaster :: [] ∧
    (reconcileOne [cexBlaster] cexDisc).2 = 0 := by
  obtain ⟨pre, post, h1, h2, h3⟩ :=
    (c9_match_refreshes [cexBlaster] cexDisc).1 cexBlaster (by decide)
  have hpre : pre = [] := by
    cases pre with
    | nil => rfl
    | cons x t =>
      exfalso
      have := congrArg List.length h1
      simp at this
  subst hpre
  have hpost : post = [] := by
    have h1' := h1
    simp only [List.nil_append, List.cons.injEq, true_and] at h1'
    exact h1'.symm
  subst hpost
  exact ⟨h1, h2, h3⟩

/-- C6 counterexample: renaming a record to the name it already holds
returns `False` (nothing is applied), because `put_name` looks the name up
globally and finds the record itself — contradicting the claim that the
rename succeeds in that case. -/
theorem c6_cex :
    (put_name [cexBlaster] 1 ("den".toList)).2 = false ∧
    (put_name [cexBlaster] 1 ("den".toList)).1 = [cexBlaster] ∧
    cexBlaster.uid = 1 ∧ cexBlaster.name = some ("den".toList) := by
  decide

/-- C6, amended: `put_name` returns `False` and changes nothing exactly
when any record — the record being renamed included — already holds a
LIKE-matching name; otherwise it sets this record's name, persists it and
returns `True`, leaving every other record unchanged. -/
theorem c6_put_name (db : List Blaster) (uid : Nat) (n : Str) :
    ((∃ b ∈ db, ∃ s, b.name = some s ∧ likeMatch s n = true) →
      put_name db uid n = (db, false)) ∧
    ((∀ b ∈ db, ∀ s, b.name = some s → likeMatch s n = false) →
      (put_name db uid n).2 = true ∧
      ∀ b₀, db.find? (fun b => b.uid == uid) = some b₀ →
        ∃ pre post, db = pre ++ b₀ :: post ∧
          (put_name db uid n).1 = pre ++ { b₀ with name := some n } :: post) := by
  constructor
  · intro ⟨b, hb, s, hs, hlm⟩
    have hsome : (db.find? fun b =>
        match b.name with
        | some n' => likeMatch n' n
        | none => false).isSome = true := by
      rw [List.find?_isSome]
      exact ⟨b, hb, by rw [hs]; exact hlm⟩
    rw [put_name]
    cases hf : db.find? fun b =>
        match b.name with
        | some n' => likeMatch n' n
        | none => false with
    | some w => rfl
    | none => rw [hf] at hsome; simp at hsome
  · intro h
    have hnone : (db.find? fun b =>
        match b.name with
        | some n' => likeMatch n' n
        | none => false) = none := by
      rw [List.find?_eq_none]
      intro b hb
      cases hn : b.name with
      | some s => simp [hn, h b hb s hn]
      | none => simp [hn]
    rw [put_name, hnone]
    refine ⟨rfl, ?_⟩
    intro b₀ hf
    obtain ⟨pre, post, hdb, hpre, hb, hupd⟩ := find?_decomp hf
    exact ⟨pre, post, hdb, hupd _⟩

/-- C6 witness: a successful rename of `cexBlaster` to the fresh name
`"tv"`. -/
theorem c6_put_name_witness :
    (put_name [cexBlaster] 1 ("tv".toList)).2 = true ∧
    [cexBlaster] = [] ++ cexBlaster :: [] ∧
    (put_name [cexBlaster] 1 ("tv".toList)).1 =
      [] ++ { cexBlaster with name := some ("tv".toList) } :: [] := by
  obtain ⟨h2, hall⟩ := (c6_put_name [cexBlaster] 1 ("tv".toList)).2 (by decide)
  obtain ⟨pre, post, hdb, hfst⟩ := hall cexBlaster (by decide)
  have hpre : pre = [] := by
    cases pre with
    | nil => rfl
    | cons x t =>
      exfalso
      have := congrArg List.length hdb
      simp at this
  subst hpre
  have hpost : post = [] := by
    have h1' := hdb
    simp only [List.nil_append, List.cons.injEq, true_and] at h1'
    exact h1'.symm
  subst hpost
  exact ⟨h2, hdb, hfst⟩

theorem bc_all_ok (env : DeviceEnv) (cmd : Str) (db : List Blaster)
    (h : ∀ x ∈ db, ∃ r, send_command env x cmd = .ok r) :
    send_command_to_all_blasters env db cmd = .ok () ∧
    broadcast_attempts env db cmd = db.map (fun b => b.uid) := by
  induction db with
  | nil => exact ⟨rfl, rfl⟩
  | cons b rest ih =>
    obtain ⟨r, hr⟩ := h b (by simp)
    obtain ⟨h1, h2⟩ := ih (fun x hx => h x (by simp [hx]))
    rw [send_command_to_all_blasters, broadcast_attempts, hr]
    exact ⟨h1, by rw [h2]; rfl⟩

theorem bc_abort (env : DeviceEnv) (cmd : Str) (b : Blaster) (e : Exn) (post : List Blaster) :
    ∀ pre : List Blaster, (∀ x ∈ pre, ∃ r, send_command env x cmd = .ok r) →
    send_command env b cmd = .error e →
    send_command_to_all_blasters env (pre ++ b :: post) cmd = .error e ∧
    broadcast_attempts env (pre ++ b :: post) cmd = pre.map (fun x => x.uid) ++ [b.uid] := by
  intro pre
  induction pre with
  | nil =>
    intro _ hb
    rw [List.nil_append, send_command_to_all_blasters, broadcast_attempts, hb]
    exact ⟨rfl, rfl⟩
  | cons x rest ih =>
    intro hpre hb
    obtain ⟨r, hr⟩ := hpre x (by simp)
    obtain ⟨h1, h2⟩ := ih (fun y hy => hpre y (by simp [hy])) hb
    rw [List.cons_append, send_command_to_all_blasters, broadcast_attempts, hr]
    exact ⟨h1, by rw [h2]; rfl⟩

/-- C3 counterexample: with two registered blasters and a transport error
raised by `send_data` on the first, `send_command_to_all_blasters` escapes
with that error and the second blaster is never attempted — contradicting
the claim that a transport error during send never prevents the remaining
attempts. -/
theorem c3_cex :
    send_command_to_all_blasters cexEnvTransport [cexB1, cexB2] cexCmd =
      .error .transportError ∧
    broadcast_attempts cexEnvTransport [cexB1, cexB2] cexCmd = [1] := by
  decide

/-- C3, amended: `send_command_to_all_blasters` attempts every record as
long as each `send_command` returns (auth timeouts included, since they
yield `False`); but as soon as one device raises (auth rejection, decode
failure or transport error), the exception propagates and the remaining
records are not attempted. -/
theorem c3_broadcast (env : DeviceEnv) (db : List Blaster) (cmd : Str) :
    ((∀ x ∈ db, ∃ r, send_command env x cmd = .ok r) →
      send_command_to_all_blasters env db cmd = .ok () ∧
      broadcast_attempts env db cmd = db.map (fun b => b.uid)) ∧
    (∀ pre b post e, db = pre ++ b :: post →
      (∀ x ∈ pre, ∃ r, send_command env x cmd = .ok r) →
      send_command env b cmd = .error e →
      send_command_to_all_blasters env db cmd = .error e ∧
      broadcast_attempts env db cmd = pre.map (fun x => x.uid) ++ [b.uid]) := by
  constructor
  · exact bc_all_ok env cmd db
  · intro pre b post e hdb hpre hb
    subst hdb
    exact bc_abort env cmd b e post pre hpre hb

/-- C3 witness: over `[cexB1, cexB2]` where `cexB1`'s session times out
during auth, the broadcast still attempts both and succeeds. -/
theorem c3_broadcast_witness :
    send_command_to_all_blasters cexEnvAuthTimeout [cexB1, cexB2] cexCmd = .ok () ∧
    broadcast_attempts cexEnvAuthTimeout [cexB1, cexB2] cexCmd = [1, 2] := by
  obtain ⟨h1, h2⟩ := (c3_broadcast cexEnvAuthTimeout [cexB1, cexB2] cexCmd).1 (by
    intro x hx
    rcases List.mem_cons.mp hx with rfl | hx
    · exact ⟨false, by decide⟩
    · rcases List.mem_cons.mp hx with rfl | hx
      · exact ⟨true, by decide⟩
      · simp at hx)
  exact ⟨h1, by rw [h2]; decide⟩

/-- C4 counterexample: when the handshake is rejected
(`broadlink.exceptions.AuthenticationError`), `send_command` raises instead
of returning `False` — only `NetworkTimeoutError` is caught by
`Blaster.device`. -/
theorem c4_cex :
    send_command cexEnvReject cexB1 cexCmd = .error .authenticationError ∧
    send_command cexEnvReject cexB1 cexCmd ≠ .ok false := by
  decide

/-- C4, amended: on a handshake timeout the session is `None` and
`send_command` returns `False` without raising; on a handshake rejection
the `AuthenticationError` propagates to the caller. -/
theorem c4_session_open (env : DeviceEnv) (b : Blaster) (cmd : Str)
    (hmac : (dec_hex b.mac_hex).isSome = true) :
    (env.auth b = .timeout →
      Blaster.device env b = .ok none ∧ send_command env b cmd = .ok false) ∧
    (env.auth b = .rejected →
      send_command env b cmd = .error .authenticationError) := by
  obtain ⟨v, hv⟩ := Option.isSome_iff_exists.mp hmac
  constructor
  · intro hauth
    have hdev : Blaster.device env b = .ok none := by
      rw [Blaster.device, hv, hauth]
    exact ⟨hdev, by rw [send_command, hdev]⟩
  · intro hauth
    have hdev : Blaster.device env b = .error .authenticationError := by
      rw [Blaster.device, hv, hauth]
    rw [send_command, hdev]

/-- C4 witness: the timeout part at the concrete environment
`cexEnvAuthTimeout` and blaster `cexB1`. -/
theorem c4_session_open_witness :
    Blaster.device cexEnvAuthTimeout cexB1 = .ok none ∧
    send_command cexEnvAuthTimeout cexB1 cexCmd = .ok false := by
  exact (c4_session_open cexEnvAuthTimeout cexB1 cexCmd (by decide)).1 (by decide)

theorem learn_loopAux_all_none (poll : Nat → Option (List Nat)) :
    ∀ r t, (∀ t', t < t' → t' ≤ t + r → poll t' = none) →
      learn_loopAux poll r t = (none, t + r) := by
  intro r
  induction r with
  | zero => intro t _; rfl
  | succ r ih =>
    intro t h
    rw [learn_loopAux, h (t + 1) (by omega) (by omega)]
    rw [ih (t + 1) (fun t' h1 h2 => h t' (by omega) (by omega))]
    have he : t + 1 + r = t + (r + 1) := by omega
    rw [he]

/-- C5 counterexample: a capture poll that returns empty data at the first
tick never yields non-empty data, yet `get_command` returns absent after an
elapsed time of 1 unit — far below the 30-unit deadline — because any
successful `check_data` breaks the polling loop. -/
theorem c5_cex :
    learn_loop cexPollEmpty 30 = (some [], 1) ∧
    get_command cexEnvLearn cexB1 30 = .ok .noCommand ∧
    (1 : Nat) < 30 := by
  decide

/-- C5, amended: when every capture poll raises a transient read error
before the deadline, the polling loop runs to the deadline, the elapsed
time is exactly the deadline (so ≥ deadline and < deadline + one poll
interval), and `get_command` returns `None`. -/
theorem c5_learning_timeout (poll : Nat → Option (List Nat)) (timeout : Nat)
    (env : DeviceEnv) (b : Blaster)
    (hpoll : ∀ t, 1 ≤ t → t ≤ timeout → poll t = none)
    (henv : env.poll = poll) (hauth : env.auth b = .ok)
    (hmac : (dec_hex b.mac_hex).isSome = true) :
    learn_loop poll timeout = (none, timeout) ∧
    timeout ≤ (learn_loop poll timeout).2 ∧
    (learn_loop poll timeout).2 < timeout + 1 ∧
    get_command env b timeout = .ok .noCommand := by
  have hloop : learn_loop poll timeout = (none, timeout) := by
    rw [learn_loop, learn_loopAux_all_none poll timeout 0
      (fun t' h1 h2 => hpoll t' (by omega) (by omega))]
    rw [Nat.zero_add]
  obtain ⟨v, hv⟩ := Option.isSome_iff_exists.mp hmac
  refine ⟨hloop, by rw [hloop], by rw [hloop]; omega, ?_⟩
  have hdev : Blaster.device env b = .ok (some ()) := by
    rw [Blaster.device, hv, hauth]
  rw [get_command, hdev, henv, hloop]

/-- C5 witness: the timeout behaviour with the default 30-unit deadline and
polls that always raise. -/
theorem c5_learning_timeout_witness :
    learn_loop (fun _ => none) 30 = (none, 30) ∧
    (30 : Nat) ≤ (learn_loop (fun _ => none) 30).2 ∧
    (learn_loop (fun _ => none) 30).2 < 30 + 1 ∧
    get_command cexEnvAllNone cexB1 30 = .ok .noCommand :=
  c5_learning_timeout (fun _ => none) 30 cexEnvAllNone cexB1
    (fun t _ _ => rfl) rfl rfl (by decide)

/-- C10: `get_command`'s two failure modes are distinguishable at the
return value — a failed session open (auth timeout) yields `False`
(`noDevice`), while a learning failure (poll timeout, or a capture that is
empty after stripping zero bytes) yields `None` (`noCommand`); with an open
session the result is never `False`. -/
theorem c10_failure_modes (env : DeviceEnv) (b : Blaster) (timeout : Nat)
    (hmac : (dec_hex b.mac_hex).isSome = true) :
    (env.auth b = .timeout → get_command env b timeout = .ok .noDevice) ∧
    (env.auth b = .ok → (learn_loop env.poll timeout).1 = none →
      get_command env b timeout = .ok .noCommand) ∧
    (env.auth b = .ok → ∀ v t, learn_loop env.poll timeout = (some v, t) →
      v.filter (fun x => x ≠ 0) = [] → get_command env b timeout = .ok .noCommand) ∧
    (env.auth b = .ok → get_command env b timeout ≠ .ok .noDevice) := by
  obtain ⟨w, hw⟩ := Option.isSome_iff_exists.mp hmac
  have hdevok : env.auth b = .ok → Blaster.device env b = .ok (some ()) := fun hauth => by
    rw [Blaster.device, hw, hauth]
  refine ⟨?_, ?_, ?_, ?_⟩
  · intro hauth
    have hdev : Blaster.device env b = .ok none := by
      rw [Blaster.device, hw, hauth]
    rw [get_command, hdev]
  · intro hauth hloop
    rw [get_command, hdevok hauth]
    rcases hlr : learn_loop env.poll timeout with ⟨r, t⟩
    rw [hlr] at hloop
    simp only at hloop
    subst hloop
    rfl
  · intro hauth v t hlr hfil
    rw [get_command, hdevok hauth, hlr]
    show (if v ≠ [] ∧ v.filter (fun x => x ≠ 0) ≠ [] then
        Except.ok (LearnResult.command (enc_b64 v))
      else Except.ok LearnResult.noCommand) = Except.ok LearnResult.noCommand
    rw [if_neg]
    intro hcond
    exact hcond.2 hfil
  · intro hauth
    rw [get_command, hdevok hauth]
    rcases learn_loop env.poll timeout with ⟨r, t⟩
    cases r with
    | none => simp
    | some v =>
      show (if v ≠ [] ∧ v.filter (fun x => x ≠ 0) ≠ [] then
          Except.ok (LearnResult.command (enc_b64 v))
        else Except.ok LearnResult.noCommand) ≠ Except.ok LearnResult.noDevice
      by_cases hc : v ≠ [] ∧ v.filter (fun x => x ≠ 0) ≠ []
      · rw [if_pos hc]
        simp
      · rw [if_neg hc]
        simp

/-- C10 witness: the session-open failure and the empty-capture failure at
concrete environments. -/
theorem c10_failure_modes_witness :
    get_command cexEnvAuthTimeout cexB1 5 = .ok .noDevice ∧
    get_command cexEnvLearn cexB1 5 = .ok .noCommand := by
  constructor
  · exact (c10_failure_modes cexEnvAuthTimeout cexB1 5 (by decide)).1 (by decide)
  · exact (c10_failure_modes cexEnvLearn cexB1 5 (by decide)).2.2.1 (by decide) [] 1
      (by decide) rfl

/-- C2 witness: both conclusions at the concrete device `cexD1` rediscovered
as `cexD2` (same MAC, new IP) against an empty registry. -/
theorem c2_reconcile_idempotent_and_dedup_witness :
    ((get_new_blasters (get_new_blasters [] [cexD1]).1 [cexD1]).2 = 0 ∧
      (get_new_blasters (get_new_blasters [] [cexD1]).1 [cexD1]).1.length =
        (get_new_blasters [] [cexD1]).1.length) ∧
    (((get_new_blasters (get_new_blasters [] [cexD1]).1 [cexD2]).1.filter
        (fun b => b.mac_hex == enc_hex cexD2.mac)).length = 1 ∧
      ∀ b ∈ (get_new_blasters (get_new_blasters [] [cexD1]).1 [cexD2]).1,
        b.mac_hex = enc_hex cexD2.mac → b.ip = cexD2.host_ip) :=
  c2_reconcile_idempotent_and_dedup [] [cexD1] cexD1 cexD2 rfl rfl rfl

/-- C7 witness: two previously-unseen devices against an empty registry. -/
theorem c7_new_device_count_witness :
    (get_new_blasters [] [cexD1, cexD3]).2 = 2 ∧
    ∃ news, (get_new_blasters [] [cexD1, cexD3]).1 = [] ++ news ∧
      news.length = 2 ∧ ∀ b ∈ news, b.name = none := by
  have h := c7_new_device_count [] [cexD1, cexD3] (by decide) (by decide) (by decide)
    (by intro d hd; exact ⟨rfl, rfl⟩)
  simpa using h
